import Mathlib

/-!
Shallow embedding of `fastapi_server/mcp_client.py` (class `MCPClient`),
the stdio JSON-RPC transport and session manager of the
puppeteer-mcp-server repository.

Modelling choices:
* JSON values are the inductive `Json`; a decoded JSON-RPC response line is
  modelled as its object form, an association list `List (String × Json)`,
  since every response the protocol produces is a JSON object.  Python's
  `dict.get(key, default)` becomes `getD`, `key in dict` becomes `hasKey`.
* The worker's behaviour during one round trip is captured by the `WireLine`
  the client's `readline` yields: end-of-stream, a line `json.loads`
  rejects, or a decoded object.  Functions that perform a round trip take
  this as an explicit argument and return, besides their result, the list
  of I/O `Event`s they performed on the worker's pipes and the successor
  client state (Python mutates `self`; the embedding passes state).
* Python raises `RuntimeError` with distinguishing messages; the embedding
  distinguishes the same failure points with the constructors of
  `MCPError`, and fallible functions return `Except`.
* The serialization behaviour of `asyncio.Lock` in `_send_request` is
  modelled separately as a small-step system (`GateStep` below).
-/

inductive Json where
  | null : Json
  | bool : Bool → Json
  | num : Int → Json
  | str : String → Json
  | arr : List Json → Json
  | obj : List (String × Json) → Json
deriving Repr

/-- Python `key in dict` on a decoded JSON object. -/
def hasKey (fields : List (String × Json)) (k : String) : Bool :=
  fields.any (fun p => p.fst == k)

/-- Python `dict.get(key, default)` on a decoded JSON object
(first binding wins, as dict keys are unique). -/
def getD (fields : List (String × Json)) (k : String) (d : Json) : Json :=
  match fields.find? (fun p => p.fst == k) with
  | some p => p.snd
  | none => d

/-- Python `value.get(key, default)` where the protocol guarantees `value`
is a JSON object (used for the nested `response.get("result", {}).get(...)`);
on a JSON object it agrees with `getD` (see `Json.getD_obj`). -/
def Json.getD : Json → String → Json → Json
  | .obj fields, k, d =>
      match fields.find? (fun p => p.fst == k) with
      | some p => p.snd
      | none => d
  | _, _, d => d

theorem getD_obj_eq (fields : List (String × Json)) (k : String) (d : Json) :
    Json.getD (.obj fields) k d = getD fields k d := rfl

/-- One line yielded by `self.process.stdout.readline()`, after decoding:
end-of-stream (empty read), a line `json.loads` rejects, or a decoded
JSON-RPC response object. -/
inductive WireLine where
  | eof : WireLine
  | malformed : WireLine
  | ok (fields : List (String × Json)) : WireLine
deriving Repr

/-- The distinguishable failure points of `mcp_client.py` (Python raises
`RuntimeError`/`JSONDecodeError` with these meanings). -/
inductive MCPError where
  /-- Python `RuntimeError("MCP server not running")` in `_send_request` /
  `_send_notification`. -/
  | notRunning : MCPError
  /-- Python `RuntimeError("MCP server closed connection")`: `readline` returned
  end-of-stream. -/
  | connectionClosed : MCPError
  /-- Python `json.loads` failed on the response line. -/
  | malformedMessage : MCPError
  /-- Python `RuntimeError(f"MCP error: ...")`: the response carried an `error`
  field; the constructor carries the worker's error payload. -/
  | remoteError (payload : Json) : MCPError
  /-- Python `RuntimeError("MCP client not initialized")`. -/
  | notInitialized : MCPError
deriving Repr

/-- I/O performed on the worker's stdin/stdout pipes, plus the two
lifecycle effects of `start`. -/
inductive Event where
  /-- Python `asyncio.create_subprocess_exec("npx", "tsx", "index.ts", ...)`. -/
  | spawned
  /-- one line written to the worker's stdin (`stdin.write` + `drain`). -/
  | wrote (line : Json)
  /-- one `readline()` from the worker's stdout and what it yielded. -/
  | readLine (w : WireLine)
  /-- Python `asyncio.create_task(self._monitor_stderr())`. -/
  | monitorStarted
deriving Repr

/-- State of `MCPClient.__init__`: `project_dir`, `process` (the handle is
opaque, only its presence matters to the client's control flow),
`request_id`, `_initialized`.  The `asyncio.Lock` has no functional
state between calls; its serialization behaviour is the gate system below. -/
structure MCPClient where
  project_dir : String
  process : Option Unit
  request_id : Nat
  initialized : Bool
deriving Repr

/-- Embeds `MCPClient.__init__(project_dir)`. -/
def MCPClient.init (project_dir : String) : MCPClient :=
  { project_dir := project_dir, process := none, request_id := 0, initialized := false }

/-- Embeds `MCPClient._next_id`: increment `self.request_id` and return it. -/
def next_id (st : MCPClient) : Nat × MCPClient :=
  (st.request_id + 1, { st with request_id := st.request_id + 1 })

/-- Embeds `MCPClient._send_request` as a function of the wire line the worker
produces: guard that the process is running (before any I/O), write the
request line, read one response line; end-of-stream fails with
`connectionClosed`, an undecodable line with `malformedMessage`, a response
carrying an `error` field with `remoteError`; otherwise the decoded
response object is returned. -/
def send_request (st : MCPClient) (request : Json) (input : WireLine) :
    Except MCPError (List (String × Json)) × List Event :=
  if st.process.isSome then
    let tr := [Event.wrote request, Event.readLine input]
    match input with
    | .eof => (.error .connectionClosed, tr)
    | .malformed => (.error .malformedMessage, tr)
    | .ok fields =>
        if hasKey fields "error" then
          (.error (.remoteError (getD fields "error" Json.null)), tr)
        else
          (.ok fields, tr)
  else (.error .notRunning, [])

/-- The `tools/call` request body built by `MCPClient.call_tool`. -/
def tools_call_request (i : Nat) (tool_name : String) (arguments : Json) : Json :=
  Json.obj [("jsonrpc", .str "2.0"), ("id", .num i), ("method", .str "tools/call"),
    ("params", .obj [("name", .str tool_name), ("arguments", arguments)])]

/-- Embeds `MCPClient.call_tool`: fail with `notInitialized` before any I/O if the
handshake has not completed, otherwise assign the next id, send a
`tools/call` request and return `response.get("result", {})`.  The
`try/except` in the source logs and re-raises, so errors pass through. -/
def call_tool (st : MCPClient) (tool_name : String) (arguments : Json)
    (input : WireLine) : Except MCPError Json × List Event × MCPClient :=
  if st.initialized then
    let (i, st1) := next_id st
    match send_request st1 (tools_call_request i tool_name arguments) input with
    | (.ok fields, tr) => (.ok (getD fields "result" (.obj [])), tr, st1)
    | (.error e, tr) => (.error e, tr, st1)
  else (.error .notInitialized, [], st)

/-- The `tools/list` request body built by `MCPClient.list_tools`. -/
def tools_list_request (i : Nat) : Json :=
  Json.obj [("jsonrpc", .str "2.0"), ("id", .num i), ("method", .str "tools/list")]

/-- Embeds `MCPClient.list_tools`: `response.get("result", {}).get("tools", [])`;
failures of the round trip propagate (no `try/except`). -/
def list_tools (st : MCPClient) (input : WireLine) :
    Except MCPError Json × List Event × MCPClient :=
  if st.initialized then
    let (i, st1) := next_id st
    match send_request st1 (tools_list_request i) input with
    | (.ok fields, tr) => (.ok ((getD fields "result" (.obj [])).getD "tools" (.arr [])), tr, st1)
    | (.error e, tr) => (.error e, tr, st1)
  else (.error .notInitialized, [], st)

/-- The `resources/list` request body built by `MCPClient.list_resources`. -/
def resources_list_request (i : Nat) : Json :=
  Json.obj [("jsonrpc", .str "2.0"), ("id", .num i), ("method", .str "resources/list")]

/-- Embeds `MCPClient.list_resources`: like `list_tools` but the whole round trip
sits inside `try/except Exception`, which logs and returns `[]` — any
failure of the underlying request becomes an empty successful result.
The initialization guard sits before the `try`, so `notInitialized`
still propagates. -/
def list_resources (st : MCPClient) (input : WireLine) :
    Except MCPError Json × List Event × MCPClient :=
  if st.initialized then
    let (i, st1) := next_id st
    match send_request st1 (resources_list_request i) input with
    | (.ok fields, tr) =>
        (.ok ((getD fields "result" (.obj [])).getD "resources" (.arr [])), tr, st1)
    | (.error _, tr) => (.ok (Json.arr []), tr, st1)
  else (.error .notInitialized, [], st)

/-- The `initialize` request body built by `MCPClient._initialize_connection`. -/
def init_request (i : Nat) : Json :=
  Json.obj [("jsonrpc", .str "2.0"), ("id", .num i), ("method", .str "initialize"),
    ("params", .obj [("protocolVersion", .str "2025-03-26"),
      ("capabilities", .obj [("tools", .obj [])]),
      ("clientInfo", .obj [("name", .str "puppeteer-fastapi-client"),
        ("version", .str "1.0.0")])])]

/-- The `notifications/initialized` notification body. -/
def initialized_notification : Json :=
  Json.obj [("jsonrpc", .str "2.0"), ("method", .str "notifications/initialized")]

/-- Embeds `MCPClient.start`: spawn the worker subprocess, then
`_initialize_connection` (send the `initialize` request, await its
response, send the `initialized` notification, set `_initialized`), and
only then `create_task(self._monitor_stderr())`.  A handshake failure
propagates out of `start` before the monitor task is created and before
`_initialized` is set. -/
def start (st : MCPClient) (input : WireLine) :
    Except MCPError Unit × List Event × MCPClient :=
  let st1 : MCPClient := { st with process := some () }
  let (i, st2) := next_id st1
  match send_request st2 (init_request i) input with
  | (.ok _, tr) =>
      (.ok (), Event.spawned :: tr ++ [Event.wrote initialized_notification, Event.monitorStarted],
        { st2 with initialized := true })
  | (.error e, tr) => (.error e, Event.spawned :: tr, st2)

/-- How the worker reacts to the shutdown sequence of `MCPClient.stop`:
exits within the 5 s grace period after stdin closes, exits only within
the 2 s period after `terminate()`, or survives until `kill()`. -/
inductive ExitBehavior where
  | gracefulExit
  | exitAfterTerminate
  | needsKill
deriving Repr

/-- The teardown actions `MCPClient.stop` performs on the worker. -/
inductive StopEvent where
  | closedStdin | waitedGrace | terminated | waitedTerm | killed | waitedKill
deriving Repr, DecidableEq

/-- Embeds `MCPClient.stop`: a no-op when `self.process` is `None`; otherwise
close stdin, wait up to the grace period, escalate to `terminate()` and
then `kill()` as needed (teardown exceptions are caught and swallowed),
and finally clear `self.process` and `self._initialized`. -/
def stop (st : MCPClient) (b : ExitBehavior) : MCPClient × List StopEvent :=
  match st.process with
  | none => (st, [])
  | some _ =>
      let events :=
        match b with
        | .gracefulExit => [StopEvent.closedStdin, .waitedGrace]
        | .exitAfterTerminate => [StopEvent.closedStdin, .waitedGrace, .terminated, .waitedTerm]
        | .needsKill =>
            [StopEvent.closedStdin, .waitedGrace, .terminated, .waitedTerm, .killed, .waitedKill]
      ({ st with process := none, initialized := false }, events)

/-- The ids handed out by `n` successive `_next_id` calls from state `st`. -/
def idsFrom (st : MCPClient) : Nat → List Nat
  | 0 => []
  | n + 1 =>
      let (i, st1) := next_id st
      i :: idsFrom st1 n

/-! ## Helper lemmas -/

theorem idsFrom_eq_range' (st : MCPClient) (n : Nat) :
    idsFrom st n = List.range' (st.request_id + 1) n := by
  induction n generalizing st with
  | zero => rfl
  | succ n ih => simp [idsFrom, next_id, ih, List.range'_succ]

theorem getD_not_hasKey (fields : List (String × Json)) (k : String) (d : Json)
    (h : hasKey fields k = false) : getD fields k d = d := by
  have hn : fields.find? (fun p => p.fst == k) = none :=
    List.find?_eq_none.mpr (fun p hp => by simpa using List.any_eq_false.mp h p hp)
  unfold getD
  rw [hn]

/-! ## Claim theorems -/

/-- C5: over the lifetime of one Session, the ids assigned by `_next_id`
start at 1, are strictly increasing with each assignment, and no id is
ever assigned twice: from a freshly constructed `MCPClient` the first `n`
assigned ids are exactly `[1, 2, ..., n]`, pairwise increasing and
without duplicates. -/
theorem request_ids_monotone (project_dir : String) (n : Nat) :
    idsFrom (MCPClient.init project_dir) n = List.range' 1 n ∧
    List.Pairwise (· < ·) (idsFrom (MCPClient.init project_dir) n) ∧
    (idsFrom (MCPClient.init project_dir) n).Nodup := by
  have h : idsFrom (MCPClient.init project_dir) n = List.range' 1 n :=
    idsFrom_eq_range' (MCPClient.init project_dir) n
  refine ⟨h, ?_, ?_⟩ <;> rw [h]
  · exact List.pairwise_lt_range' 1 n
  · exact List.nodup_range' 1 n

/-- C6: any `call_tool` made while the readiness flag is unset — which is
the case before `start()` has completed the handshake and after `stop()`
(see `stop_idempotent`) — fails with `notInitialized`, performs no I/O on
the worker's pipes (empty event list) and leaves the state untouched. -/
theorem call_tool_unready (st : MCPClient) (tool_name : String) (arguments : Json)
    (input : WireLine) (h : st.initialized = false) :
    call_tool st tool_name arguments input = (.error .notInitialized, [], st) := by
  simp [call_tool, h]

theorem call_tool_unready_witness :
    (MCPClient.init "proj").initialized = false ∧
    call_tool (MCPClient.init "proj") "puppeteer_navigate" (Json.obj []) .eof
      = (.error .notInitialized, [], MCPClient.init "proj") :=
  ⟨rfl, call_tool_unready (MCPClient.init "proj") "puppeteer_navigate" (Json.obj []) .eof rfl⟩

/-- C8: `stop` is idempotent.  From any state whose readiness flag can
only be set while a process handle exists (true of every reachable
state), one `stop` clears the process handle and the readiness flag —
regardless of whether the worker exits gracefully, needs `terminate()`,
or needs `kill()` — and a second `stop` is a pure no-op: it performs no
teardown actions and leaves the state exactly as the first `stop` left
it.  The same no-op behaviour covers a `stop` on a never-started client. -/
theorem stop_idempotent (st : MCPClient) (b b' : ExitBehavior)
    (h : st.initialized = true → st.process.isSome) :
    ((stop st b).fst).process = none ∧
    ((stop st b).fst).initialized = false ∧
    stop ((stop st b).fst) b' = ((stop st b).fst, []) := by
  obtain ⟨pd, proc, rid, ini⟩ := st
  cases proc with
  | none =>
      cases ini with
      | false => exact ⟨rfl, rfl, rfl⟩
      | true => simp at h
  | some u => exact ⟨rfl, rfl, rfl⟩

theorem stop_idempotent_witness :
    ((stop (⟨"proj", some (), 3, true⟩ : MCPClient) .gracefulExit).fst).process = none ∧
    ((stop (⟨"proj", some (), 3, true⟩ : MCPClient) .gracefulExit).fst).initialized = false ∧
    stop ((stop (⟨"proj", some (), 3, true⟩ : MCPClient) .gracefulExit).fst) .needsKill
      = ((stop (⟨"proj", some (), 3, true⟩ : MCPClient) .gracefulExit).fst, []) :=
  stop_idempotent (⟨"proj", some (), 3, true⟩ : MCPClient) .gracefulExit .needsKill
    (fun _ => rfl)

/-- C2: `list_resources` treats any failure of the underlying round trip
as a non-fatal empty result — whenever `send_request` on its request
fails, for any error whatsoever, `list_resources` returns the successful
empty listing — while `list_tools` propagates exactly the error the
underlying `send_request` failed with.  This asymmetry is the code's
`try/except ... return []` around the `resources/list` round trip only. -/
theorem list_resources_best_effort (st : MCPClient) (input : WireLine)
    (h : st.initialized = true) :
    (∀ e, (send_request (next_id st).2 (resources_list_request (next_id st).1) input).fst
        = .error e → (list_resources st input).fst = .ok (Json.arr [])) ∧
    (∀ e, (send_request (next_id st).2 (tools_list_request (next_id st).1) input).fst
        = .error e → (list_tools st input).fst = .error e) := by
  constructor
  · intro e he
    simp only [list_resources, h, if_true, next_id] at he ⊢
    split
    · rename_i fields tr hq
      rw [hq] at he
      simp at he
    · rfl
  · intro e he
    simp only [list_tools, h, if_true, next_id] at he ⊢
    split
    · rename_i fields tr hq
      rw [hq] at he
      simp at he
    · rename_i e2 tr hq
      rw [hq] at he
      simpa using he

theorem list_resources_best_effort_witness :
    (list_resources (⟨"proj", some (), 1, true⟩ : MCPClient) .eof).fst = .ok (Json.arr []) ∧
    (list_tools (⟨"proj", some (), 1, true⟩ : MCPClient) .eof).fst
      = .error .connectionClosed :=
  ⟨(list_resources_best_effort (⟨"proj", some (), 1, true⟩ : MCPClient) .eof rfl).1
      .connectionClosed rfl,
   (list_resources_best_effort (⟨"proj", some (), 1, true⟩ : MCPClient) .eof rfl).2
      .connectionClosed rfl⟩

/-- C7: outcome of one `call_tool` round trip on a ready client with a
live process: end-of-stream fails with `connectionClosed`; a decoded
response carrying an `error` field fails with `remoteError` carrying the
worker's error payload; otherwise the call succeeds and returns the
response's `result` payload (`response.get("result", {})`). -/
theorem invoke_outcomes (st : MCPClient) (tool_name : String) (arguments : Json)
    (h1 : st.initialized = true) (h2 : st.process = some ()) :
    ((call_tool st tool_name arguments .eof).fst = .error .connectionClosed) ∧
    (∀ fields, hasKey fields "error" = true →
      (call_tool st tool_name arguments (.ok fields)).fst
        = .error (.remoteError (getD fields "error" Json.null))) ∧
    (∀ fields, hasKey fields "error" = false →
      (call_tool st tool_name arguments (.ok fields)).fst
        = .ok (getD fields "result" (.obj []))) := by
  refine ⟨?_, fun fields hf => ?_, fun fields hf => ?_⟩ <;>
    simp [call_tool, send_request, next_id, h1, h2, *]

theorem invoke_outcomes_witness :
    (call_tool (⟨"proj", some (), 0, true⟩ : MCPClient) "puppeteer_click" (Json.obj [])
        .eof).fst = .error .connectionClosed ∧
    (call_tool (⟨"proj", some (), 0, true⟩ : MCPClient) "puppeteer_click" (Json.obj [])
        (.ok [("id", .num 1), ("error", .str "boom")])).fst
      = .error (.remoteError (.str "boom")) ∧
    (call_tool (⟨"proj", some (), 0, true⟩ : MCPClient) "puppeteer_click" (Json.obj [])
        (.ok [("id", .num 1), ("result", .str "fine")])).fst = .ok (.str "fine") :=
  ⟨(invoke_outcomes (⟨"proj", some (), 0, true⟩ : MCPClient) "puppeteer_click"
      (Json.obj []) rfl rfl).1,
   (invoke_outcomes (⟨"proj", some (), 0, true⟩ : MCPClient) "puppeteer_click"
      (Json.obj []) rfl rfl).2.1 [("id", .num 1), ("error", .str "boom")] rfl,
   (invoke_outcomes (⟨"proj", some (), 0, true⟩ : MCPClient) "puppeteer_click"
      (Json.obj []) rfl rfl).2.2 [("id", .num 1), ("result", .str "fine")] rfl⟩

/-- C10: a decoded response with neither an `error` nor a `result` field
does not fail: `call_tool` returns the empty mapping (`.get`'s `{}`
default), and `list_tools` / `list_resources` return the empty sequence
(`.get`'s `[]` default applied to the empty object). -/
theorem absent_result_defaults (st : MCPClient) (tool_name : String) (arguments : Json)
    (fields : List (String × Json))
    (h1 : st.initialized = true) (h2 : st.process = some ())
    (he : hasKey fields "error" = false) (hr : hasKey fields "result" = false) :
    (call_tool st tool_name arguments (.ok fields)).fst = .ok (Json.obj []) ∧
    (list_tools st (.ok fields)).fst = .ok (Json.arr []) ∧
    (list_resources st (.ok fields)).fst = .ok (Json.arr []) := by
  have hg : getD fields "result" (Json.obj []) = Json.obj [] :=
    getD_not_hasKey fields "result" (Json.obj []) hr
  refine ⟨?_, ?_, ?_⟩ <;>
    simp [call_tool, list_tools, list_resources, send_request, next_id,
      h1, h2, he, hg, Json.getD]

theorem absent_result_defaults_witness :
    (call_tool (⟨"proj", some (), 7, true⟩ : MCPClient) "puppeteer_fill" (Json.obj [])
        (.ok [("jsonrpc", .str "2.0"), ("id", .num 8)])).fst = .ok (Json.obj []) ∧
    (list_tools (⟨"proj", some (), 7, true⟩ : MCPClient)
        (.ok [("jsonrpc", .str "2.0"), ("id", .num 8)])).fst = .ok (Json.arr []) ∧
    (list_resources (⟨"proj", some (), 7, true⟩ : MCPClient)
        (.ok [("jsonrpc", .str "2.0"), ("id", .num 8)])).fst = .ok (Json.arr []) :=
  absent_result_defaults (⟨"proj", some (), 7, true⟩ : MCPClient) "puppeteer_fill"
    (Json.obj []) [("jsonrpc", .str "2.0"), ("id", .num 8)] rfl rfl rfl rfl

/-- A decoded response whose `id` (999) does not match the outstanding
request's id, carrying a perfectly ordinary `result`. -/
def mismatchedIdResponse : List (String × Json) :=
  [("jsonrpc", .str "2.0"), ("id", .num 999), ("result", .str "other-result")]

/-- C3 counterexample: the code never inspects the response `id`.  From a
ready client whose next assigned request id is 6, `call_tool` writes a
request carrying id 6, reads a response carrying id 999, and silently
delivers that response's result to the caller — it neither resynchronizes
nor fails (no `ProtocolDesync` exists anywhere in `MCPError`, the code's
failure taxonomy). -/
theorem response_id_never_checked_counterexample :
    (call_tool (⟨"proj", some (), 5, true⟩ : MCPClient) "puppeteer_click" (Json.obj [])
        (.ok mismatchedIdResponse)).fst = .ok (.str "other-result") ∧
    (call_tool (⟨"proj", some (), 5, true⟩ : MCPClient) "puppeteer_click" (Json.obj [])
        (.ok mismatchedIdResponse)).2.1
      = [Event.wrote (tools_call_request 6 "puppeteer_click" (Json.obj [])),
         Event.readLine (.ok mismatchedIdResponse)] ∧
    getD mismatchedIdResponse "id" Json.null = .num 999 ∧ (999 : Int) ≠ 6 :=
  ⟨rfl, rfl, rfl, by decide⟩

/-- C3 amended: `_send_request` performs no id validation at all — any
decoded response without an `error` field is delivered as the round
trip's result, whatever its `id` field holds (the `fields` below are
arbitrary, in particular their `id` may differ from the request's id),
and no desync failure path exists. -/
theorem response_delivered_regardless_of_id (st : MCPClient) (tool_name : String)
    (arguments : Json) (fields : List (String × Json))
    (h1 : st.initialized = true) (h2 : st.process = some ())
    (he : hasKey fields "error" = false) :
    (call_tool st tool_name arguments (.ok fields)).fst
      = .ok (getD fields "result" (.obj [])) := by
  simp [call_tool, send_request, next_id, h1, h2, he]

theorem response_delivered_regardless_of_id_witness :
    (call_tool (⟨"proj", some (), 5, true⟩ : MCPClient) "puppeteer_click" (Json.obj [])
        (.ok mismatchedIdResponse)).fst
      = .ok (getD mismatchedIdResponse "result" (.obj [])) :=
  response_delivered_regardless_of_id (⟨"proj", some (), 5, true⟩ : MCPClient)
    "puppeteer_click" (Json.obj []) mismatchedIdResponse rfl rfl rfl

/-- A successful `initialize` response for the handshake. -/
def okInitResponse : List (String × Json) :=
  [("jsonrpc", .str "2.0"), ("id", .num 1),
   ("result", .obj [("protocolVersion", .str "2025-03-26")])]

/-- C4 counterexample: in a successful `start`, the event immediately
after the spawn is the handshake's `initialize` request write, not the
creation of the stderr-monitor task; the monitor task is started last,
after the whole handshake (initialize request, its response, the
initialized notification). -/
theorem monitor_not_started_before_handshake_counterexample :
    (start (MCPClient.init "proj") (.ok okInitResponse)).2.1
      = [Event.spawned, Event.wrote (init_request 1), Event.readLine (.ok okInitResponse),
         Event.wrote initialized_notification, Event.monitorStarted] ∧
    (start (MCPClient.init "proj") (.ok okInitResponse)).2.1.get? 1
      ≠ some Event.monitorStarted :=
  ⟨rfl, by intro hcontra; simp [start, send_request, next_id, hasKey,
      okInitResponse, MCPClient.init] at hcontra⟩

/-- C4 amended: `start` spawns the worker first, immediately continues
with the handshake's `initialize` request, and starts the Diagnostic
Monitor task only after the handshake completed — whenever the monitor
task was started at all, the run performed, in order: spawn, write of the
`initialize` request, read of its response, write of the `initialized`
notification, and only then the monitor-task creation. -/
theorem start_event_order (st : MCPClient) (input : WireLine) :
    (start st input).2.1.head? = some Event.spawned ∧
    (start st input).2.1.get? 1 = some (Event.wrote (init_request (st.request_id + 1))) ∧
    (Event.monitorStarted ∈ (start st input).2.1 →
      (start st input).2.1
        = [Event.spawned, Event.wrote (init_request (st.request_id + 1)),
           Event.readLine input, Event.wrote initialized_notification,
           Event.monitorStarted]) := by
  cases input with
  | eof => simp [start, send_request, next_id]
  | malformed => simp [start, send_request, next_id]
  | ok fields =>
      by_cases he : hasKey fields "error" = true
      · simp [start, send_request, next_id, he]
      · simp [start, send_request, next_id, he]

theorem start_event_order_witness :
    (start (MCPClient.init "proj") (.ok okInitResponse)).2.1
      = [Event.spawned, Event.wrote (init_request 1),
         Event.readLine (.ok okInitResponse), Event.wrote initialized_notification,
         Event.monitorStarted] :=
  (start_event_order (MCPClient.init "proj") (.ok okInitResponse)).2.2
    (by simp [start, send_request, next_id, hasKey, okInitResponse, MCPClient.init])

/-- C9 counterexample: `Stopped` is not terminal.  Run a session to
`Ready`, stop it (readiness flag and process handle cleared), then call
`start` again: the call succeeds and the session is `Ready` again —
`start` has transitioned the session out of `Stopped`. -/
theorem stopped_not_terminal_counterexample :
    ((stop ((start (MCPClient.init "proj") (.ok okInitResponse)).2.2) .gracefulExit
        ).fst).initialized = false ∧
    ((stop ((start (MCPClient.init "proj") (.ok okInitResponse)).2.2) .gracefulExit
        ).fst).process = none ∧
    (start ((stop ((start (MCPClient.init "proj") (.ok okInitResponse)).2.2) .gracefulExit
        ).fst) (.ok okInitResponse)).fst = .ok () ∧
    ((start ((stop ((start (MCPClient.init "proj") (.ok okInitResponse)).2.2) .gracefulExit
        ).fst) (.ok okInitResponse)).2.2).initialized = true :=
  ⟨rfl, rfl, rfl, rfl⟩

/-- C9 amended: `stop` brings any (reachable) session to the stopped
configuration — readiness flag cleared, process handle cleared — but
nothing guards against a restart: a subsequent `start` whose handshake
succeeds returns the session to the ready state (`initialized = true`). -/
theorem stop_then_restart (st : MCPClient) (b : ExitBehavior)
    (fields : List (String × Json))
    (h : st.initialized = true → st.process.isSome)
    (he : hasKey fields "error" = false) :
    ((stop st b).fst).initialized = false ∧
    ((stop st b).fst).process = none ∧
    (start ((stop st b).fst) (.ok fields)).fst = .ok () ∧
    ((start ((stop st b).fst) (.ok fields)).2.2).initialized = true := by
  obtain ⟨hp, hi, -⟩ := stop_idempotent st b b h
  refine ⟨hi, hp, ?_, ?_⟩ <;>
    simp [start, send_request, next_id, he]

theorem stop_then_restart_witness :
    ((stop (⟨"proj", some (), 9, true⟩ : MCPClient) .needsKill).fst).initialized = false ∧
    ((stop (⟨"proj", some (), 9, true⟩ : MCPClient) .needsKill).fst).process = none ∧
    (start ((stop (⟨"proj", some (), 9, true⟩ : MCPClient) .needsKill).fst)
        (.ok okInitResponse)).fst = .ok () ∧
    ((start ((stop (⟨"proj", some (), 9, true⟩ : MCPClient) .needsKill).fst)
        (.ok okInitResponse)).2.2).initialized = true :=
  stop_then_restart (⟨"proj", some (), 9, true⟩ : MCPClient) .needsKill okInitResponse
    (fun _ => rfl) rfl

/-!
## The serialization gate of `_send_request`

`_send_request` performs its round trip inside `async with self._lock`:
acquire the single `asyncio.Lock`, write the request line, read one
response line, release the lock (also on the exceptional exits, via the
`async with`).  Concurrent callers (`call_tool` / `list_tools` /
`list_resources` tasks) are modelled as tasks identified by a `TaskId`,
each progressing through the phases of one round trip; `asyncio.Lock`
grants `acquire` only when no task holds the lock.
-/

abbrev TaskId := Nat

/-- Where a task stands inside `_send_request`'s critical section. -/
inductive Phase where
  | idle      -- not inside the `async with` block
  | locked    -- holds the lock, request not yet written
  | written   -- request line written, response not yet read
  | readDone  -- response line read, lock not yet released
deriving Repr, DecidableEq

/-- Lock plus per-task control state of the cooperative scheduler. -/
structure GateState where
  lockHolder : Option TaskId
  phase : TaskId → Phase

def initGate : GateState := ⟨none, fun _ => .idle⟩

/-- Observable events of the round trips on the shared pipe. -/
inductive GateEvent where
  | acquire (t : TaskId)
  | wrote (t : TaskId)
  | readResp (t : TaskId)
  | release (t : TaskId)
deriving Repr, DecidableEq

def setPhase (f : TaskId → Phase) (t : TaskId) (p : Phase) : TaskId → Phase :=
  fun u => if u = t then p else f u

/-- One scheduler step of the `async with self._lock` discipline:
`acquire` is granted only while no task holds the lock; the write and the
read of one round trip happen strictly inside the held section; only the
holder, after its read completed, releases. -/
inductive GateStep : GateState → GateEvent → GateState → Prop where
  | acquire (s : GateState) (t : TaskId) :
      s.lockHolder = none → s.phase t = .idle →
      GateStep s (.acquire t) ⟨some t, setPhase s.phase t .locked⟩
  | wrote (s : GateState) (t : TaskId) :
      s.phase t = .locked →
      GateStep s (.wrote t) ⟨s.lockHolder, setPhase s.phase t .written⟩
  | readResp (s : GateState) (t : TaskId) :
      s.phase t = .written →
      GateStep s (.readResp t) ⟨s.lockHolder, setPhase s.phase t .readDone⟩
  | release (s : GateState) (t : TaskId) :
      s.lockHolder = some t → s.phase t = .readDone →
      GateStep s (.release t) ⟨none, setPhase s.phase t .idle⟩

/-- Executions: event traces reachable from the initial state under any
interleaving of any number of concurrent caller tasks. -/
inductive GateReaches : List GateEvent → GateState → Prop where
  | refl : GateReaches [] initGate
  | snoc {tr s e s2} : GateReaches tr s → GateStep s e s2 → GateReaches (tr ++ [e]) s2

/-- The state of the one round trip possibly in flight. -/
def gateAbs (s : GateState) : Option (TaskId × Phase) :=
  match s.lockHolder with
  | none => none
  | some t => some (t, s.phase t)

/-- Traces that are a sequence of complete, non-interleaved round-trip
blocks `acquire t, wrote t, readResp t, release t` (possibly ending
inside a block); the index tracks the in-flight round trip. -/
inductive SerializedTrace : List GateEvent → Option (TaskId × Phase) → Prop where
  | nil : SerializedTrace [] none
  | acq {tr t} : SerializedTrace tr none →
      SerializedTrace (tr ++ [.acquire t]) (some (t, .locked))
  | wr {tr t} : SerializedTrace tr (some (t, .locked)) →
      SerializedTrace (tr ++ [.wrote t]) (some (t, .written))
  | rd {tr t} : SerializedTrace tr (some (t, .written)) →
      SerializedTrace (tr ++ [.readResp t]) (some (t, .readDone))
  | rel {tr t} : SerializedTrace tr (some (t, .readDone)) →
      SerializedTrace (tr ++ [.release t]) none

/-- Any task inside the critical section is the lock holder. -/
def GateInv (s : GateState) : Prop :=
  ∀ t, s.phase t ≠ .idle → s.lockHolder = some t

theorem gateReaches_inv (tr : List GateEvent) (s : GateState)
    (h : GateReaches tr s) : GateInv s ∧ SerializedTrace tr (gateAbs s) := by
  induction h with
  | refl =>
      refine ⟨fun t ht => absurd rfl ht, SerializedTrace.nil⟩
  | @snoc tr s e s2 _ hs ih =>
      obtain ⟨hinv, hser⟩ := ih
      cases hs with
      | acquire t hl hp =>
          constructor
          · intro u hu
            by_cases he : u = t
            · simp [he]
            · have hu2 : s.phase u ≠ Phase.idle := by
                simpa [setPhase, he] using hu
              exact absurd (hl ▸ hinv u hu2) (by simp)
          · have habs : gateAbs s = none := by simp [gateAbs, hl]
            rw [habs] at hser
            have hg := SerializedTrace.acq (t := t) hser
            simpa [gateAbs, setPhase] using hg
      | wrote t hp =>
          have hl : s.lockHolder = some t := hinv t (by simp [hp])
          constructor
          · intro u hu
            by_cases he : u = t
            · simpa [he] using hl
            · have hu2 : s.phase u ≠ Phase.idle := by
                simpa [setPhase, he] using hu
              exact hinv u hu2
          · have habs : gateAbs s = some (t, Phase.locked) := by
              simp [gateAbs, hl, hp]
            rw [habs] at hser
            have hg := SerializedTrace.wr hser
            simpa [gateAbs, hl, setPhase] using hg
      | readResp t hp =>
          have hl : s.lockHolder = some t := hinv t (by simp [hp])
          constructor
          · intro u hu
            by_cases he : u = t
            · simpa [he] using hl
            · have hu2 : s.phase u ≠ Phase.idle := by
                simpa [setPhase, he] using hu
              exact hinv u hu2
          · have habs : gateAbs s = some (t, Phase.written) := by
              simp [gateAbs, hl, hp]
            rw [habs] at hser
            have hg := SerializedTrace.rd hser
            simpa [gateAbs, hl, setPhase] using hg
      | release t hl hp =>
          constructor
          · intro u hu
            by_cases he : u = t
            · rw [he] at hu
              simp [setPhase] at hu
            · have hu2 : s.phase u ≠ Phase.idle := by
                simpa [setPhase, he] using hu
              have h2 := hinv u hu2
              rw [hl] at h2
              exact absurd (Option.some.inj h2).symm he
          · have habs : gateAbs s = some (t, Phase.readDone) := by
              simp [gateAbs, hl, hp]
            rw [habs] at hser
            have hg := SerializedTrace.rel hser
            simpa [gateAbs] using hg

/-- C1: round trips of concurrent `invoke` callers are strictly
serialized through the single lock of `_send_request`.  Every reachable
execution trace is a sequence of complete, non-interleaved blocks
`acquire t, wrote t, readResp t, release t` — so at most one round trip
is in flight at any instant, the request is written and its response
fully read by the same task before the lock is released, and no second
request is written before the previous response has been read; moreover
at any reachable state at most one task is inside the critical section. -/
theorem invoke_round_trips_serialized (tr : List GateEvent) (s : GateState)
    (h : GateReaches tr s) :
    SerializedTrace tr (gateAbs s) ∧
    (∀ t u, s.phase t ≠ .idle → s.phase u ≠ .idle → t = u) := by
  obtain ⟨hinv, hser⟩ := gateReaches_inv tr s h
  refine ⟨hser, fun t u ht hu => ?_⟩
  have h1 := hinv t ht
  have h2 := hinv u hu
  rw [h1] at h2
  exact Option.some.inj h2

theorem invoke_round_trips_serialized_witness :
    SerializedTrace [.acquire 0, .wrote 0, .readResp 0, .release 0] none := by
  have h0 : GateReaches [] initGate := GateReaches.refl
  have h1 : GateReaches [GateEvent.acquire 0]
      ⟨some 0, setPhase (fun _ => Phase.idle) 0 .locked⟩ :=
    h0.snoc (GateStep.acquire initGate 0 rfl rfl)
  have h2 : GateReaches [GateEvent.acquire 0, .wrote 0]
      ⟨some 0, setPhase (setPhase (fun _ => Phase.idle) 0 .locked) 0 .written⟩ :=
    h1.snoc (GateStep.wrote _ 0 rfl)
  have h3 : GateReaches [GateEvent.acquire 0, .wrote 0, .readResp 0]
      ⟨some 0, setPhase (setPhase (setPhase (fun _ => Phase.idle) 0 .locked) 0 .written)
        0 .readDone⟩ :=
    h2.snoc (GateStep.readResp _ 0 rfl)
  have h4 : GateReaches [GateEvent.acquire 0, .wrote 0, .readResp 0, .release 0]
      ⟨none, setPhase (setPhase (setPhase (setPhase (fun _ => Phase.idle) 0 .locked)
        0 .written) 0 .readDone) 0 .idle⟩ :=
    h3.snoc (GateStep.release _ 0 rfl rfl)
  exact (invoke_round_trips_serialized _ _ h4).1
